import Mathlib

/-!
Shallow embedding of the music-advisor feature-capture pipeline.

Sources embedded here:
* `src/plugins/juce_probe/Source/dsp/FeatureCollector.{h,cpp}` — the
  FIFO + background-thread variant (frames, aggregator, snapshot writer).
* `src/plugins/juce_ui_demo/Source/{FeatureCollector.h,SidecarWriter.h}` —
  the lock-free-atomics variant.

Modelling conventions: C++ `double`/`float` values that the program only
adds, compares and maxes are embedded as `ℚ`; values produced by `sqrt`
and `log10` live in `ℝ`.  `int`/`int64_t` counters are `ℤ`; the FIFO
cursors (always in `[0, bufferSize)`) are `ℕ`.  Thread interleavings are
not modelled: every shared-state operation in the source is a short
critical section or an atomic flag, and the claims under study are about
the sequential effect of the operations, which is what is embedded.
Filesystem and clock effects are modelled by explicit parameters
(an `FsOutcome` for the two fallible filesystem steps, a `timestamp`
string for the wall clock, an `Option String` for `getenv`).
-/

/-- `kTimelineSpacingSec` from FeatureCollector.cpp line 8 (0.25 s). -/
def kTimelineSpacingSec : ℚ := 1 / 4

/-- `kEpsilon` from FeatureCollector.cpp line 9 (1.0e-9). -/
def kEpsilon : ℚ := 1 / 1000000000

/-- Embeds `juce::Decibels::gainToDecibels` (external JUCE library) at its
default `minusInfinityDb = -100`: for a positive gain it returns
`max (-100) (20 * log10 gain)`, otherwise `-100`. -/
noncomputable def gainToDecibels (gain : ℝ) : ℝ :=
  if 0 < gain then max (-100) (20 * Real.logb 10 gain) else -100

/-- `ProbeFrame` from FeatureCollector.h lines 7-13. -/
structure ProbeFrame where
  timestampSec : ℚ
  sumSquares : ℚ
  sampleCount : ℤ
  peakLinear : ℚ
  deriving Repr, DecidableEq

/-- `TimelinePoint` from FeatureCollector.h lines 15-20. -/
structure TimelinePoint where
  timeSec : ℚ
  rmsDb : ℝ
  peakDb : ℝ

/-- `FeatureCollector::Aggregator` state, FeatureCollector.h lines 58-69. -/
structure Aggregator where
  sampleRate : ℚ
  totalSeconds : ℚ
  sumSquares : ℚ
  totalSamples : ℤ
  maxPeak : ℚ
  lastTimelineWrite : ℚ
  timeline : List TimelinePoint

/-- `Aggregator::reset`, FeatureCollector.cpp lines 97-105. -/
def Aggregator.reset (a : Aggregator) : Aggregator :=
  { a with
    totalSeconds := 0
    sumSquares := 0
    totalSamples := 0
    maxPeak := 0
    lastTimelineWrite := -1
    timeline := [] }

/-- The rms of one frame, `std::sqrt(frame.sumSquares / std::max(1, frame.sampleCount))`,
FeatureCollector.cpp line 122. -/
noncomputable def frameRmsLinear (frame : ProbeFrame) : ℝ :=
  Real.sqrt ((frame.sumSquares : ℝ) / ((max 1 frame.sampleCount : ℤ) : ℝ))

/-- The timeline point recorded for a frame, FeatureCollector.cpp lines 122-127. -/
noncomputable def mkTimelinePoint (frame : ProbeFrame) : TimelinePoint :=
  { timeSec := frame.timestampSec
    rmsDb := gainToDecibels (frameRmsLinear frame + (kEpsilon : ℝ))
    peakDb := gainToDecibels ((frame.peakLinear : ℝ) + (kEpsilon : ℝ)) }

/-- `Aggregator::ingest`, FeatureCollector.cpp lines 107-129. -/
noncomputable def Aggregator.ingest (a : Aggregator) (frame : ProbeFrame) : Aggregator :=
  let blockDuration : ℚ :=
    if 0 < frame.sampleCount ∧ 0 < a.sampleRate then (frame.sampleCount : ℚ) / a.sampleRate
    else 0
  let a1 : Aggregator :=
    { a with
      totalSeconds := max a.totalSeconds (frame.timestampSec + blockDuration)
      sumSquares := a.sumSquares + frame.sumSquares
      totalSamples := a.totalSamples + frame.sampleCount
      maxPeak := max a.maxPeak frame.peakLinear }
  if a.lastTimelineWrite < 0 ∨ kTimelineSpacingSec ≤ frame.timestampSec - a.lastTimelineWrite then
    { a1 with
      lastTimelineWrite := frame.timestampSec
      timeline := a1.timeline ++ [mkTimelinePoint frame] }
  else a1

/-- Aggregator state right after `prepare(sampleRate, _)`
(FeatureCollector.cpp lines 50-56: store the rate, then reset). -/
def initialAggregator (sampleRate : ℚ) : Aggregator :=
  Aggregator.reset
    { sampleRate := sampleRate, totalSeconds := 0, sumSquares := 0, totalSamples := 0,
      maxPeak := 0, lastTimelineWrite := -1, timeline := [] }

/-- Folding a whole frame sequence through `ingest`, in arrival order
(the background thread calls `ingest` once per drained frame). -/
noncomputable def ingestList (a : Aggregator) (frames : List ProbeFrame) : Aggregator :=
  frames.foldl Aggregator.ingest a

theorem ingest_totalSeconds (a : Aggregator) (f : ProbeFrame) :
    (a.ingest f).totalSeconds =
      max a.totalSeconds
        (f.timestampSec +
          if 0 < f.sampleCount ∧ 0 < a.sampleRate then (f.sampleCount : ℚ) / a.sampleRate
          else 0) := by
  unfold Aggregator.ingest
  split <;> split <;> rfl

theorem ingest_sumSquares (a : Aggregator) (f : ProbeFrame) :
    (a.ingest f).sumSquares = a.sumSquares + f.sumSquares := by
  unfold Aggregator.ingest
  split <;> split <;> rfl

theorem ingest_totalSamples (a : Aggregator) (f : ProbeFrame) :
    (a.ingest f).totalSamples = a.totalSamples + f.sampleCount := by
  unfold Aggregator.ingest
  split <;> split <;> rfl

theorem ingest_maxPeak (a : Aggregator) (f : ProbeFrame) :
    (a.ingest f).maxPeak = max a.maxPeak f.peakLinear := by
  unfold Aggregator.ingest
  split <;> split <;> rfl

theorem ingest_sampleRate (a : Aggregator) (f : ProbeFrame) :
    (a.ingest f).sampleRate = a.sampleRate := by
  unfold Aggregator.ingest
  split <;> split <;> rfl

theorem ingest_timeline (a : Aggregator) (f : ProbeFrame) :
    (a.ingest f).timeline =
      if a.lastTimelineWrite < 0 ∨ kTimelineSpacingSec ≤ f.timestampSec - a.lastTimelineWrite
      then a.timeline ++ [mkTimelinePoint f]
      else a.timeline := by
  unfold Aggregator.ingest
  split <;> split <;> simp_all

theorem ingest_lastTimelineWrite (a : Aggregator) (f : ProbeFrame) :
    (a.ingest f).lastTimelineWrite =
      if a.lastTimelineWrite < 0 ∨ kTimelineSpacingSec ≤ f.timestampSec - a.lastTimelineWrite
      then f.timestampSec
      else a.lastTimelineWrite := by
  unfold Aggregator.ingest
  split <;> split <;> simp_all

/-- C1: each `ingest` advances the elapsed-time high-water mark with the
block duration (`sample_count / sample_rate`, 0 for a non-positive rate),
and accumulates sum-of-squares, sample count and peak as stated. -/
theorem ma_C1 (a : Aggregator) (f : ProbeFrame)
    (hc : 0 ≤ f.sampleCount) (_hs : 0 ≤ f.sumSquares) (_hp : 0 ≤ f.peakLinear) :
    (a.ingest f).totalSeconds =
        max a.totalSeconds
          (f.timestampSec + (if a.sampleRate ≤ 0 then 0 else (f.sampleCount : ℚ) / a.sampleRate)) ∧
      (a.ingest f).sumSquares = a.sumSquares + f.sumSquares ∧
      (a.ingest f).totalSamples = a.totalSamples + f.sampleCount ∧
      (a.ingest f).maxPeak = max a.maxPeak f.peakLinear := by
  refine ⟨?_, ingest_sumSquares a f, ingest_totalSamples a f, ingest_maxPeak a f⟩
  rw [ingest_totalSeconds]
  congr 1
  rcases lt_or_le 0 a.sampleRate with hr | hr
  · rw [if_neg (not_le.mpr hr)]
    rcases eq_or_lt_of_le hc with hz | hpos
    · have hno : ¬ (0 < f.sampleCount ∧ 0 < a.sampleRate) := by
        rintro ⟨h1, -⟩
        omega
      rw [if_neg hno, ← hz]
      norm_num
    · rw [if_pos ⟨hpos, hr⟩]
  · rw [if_pos hr, if_neg]
    rintro ⟨-, h2⟩
    exact absurd h2 (not_lt.mpr hr)

theorem ma_C1_witness :
    (0 : ℤ) ≤ 480 ∧ (0 : ℚ) ≤ 2 ∧ (0 : ℚ) ≤ 1 ∧
      ((initialAggregator 48000).ingest ⟨0, 2, 480, 1⟩).totalSamples = 0 + 480 :=
  ⟨by decide, by norm_num, by norm_num,
    (ma_C1 (initialAggregator 48000) ⟨0, 2, 480, 1⟩ (by decide) (by norm_num)
      (by norm_num)).2.2.1⟩

/-- C9: `reset` zeroes every accumulator, clears the timeline, and is
idempotent (it only overwrites fields with constants and keeps the
sample rate, so resetting twice equals resetting once). -/
theorem ma_C9 (a : Aggregator) :
    a.reset.totalSamples = 0 ∧ a.reset.sumSquares = 0 ∧ a.reset.totalSeconds = 0 ∧
      a.reset.maxPeak = 0 ∧ a.reset.timeline = [] ∧ a.reset.reset = a.reset :=
  ⟨rfl, rfl, rfl, rfl, rfl, rfl⟩

theorem epsilon_cast_pos : (0 : ℝ) < ((kEpsilon : ℚ) : ℝ) := by
  norm_num [kEpsilon]

theorem epsilon_eq_rpow : ((kEpsilon : ℚ) : ℝ) = (10 : ℝ) ^ ((-9 : ℤ) : ℝ) := by
  rw [Real.rpow_intCast]
  norm_num [kEpsilon]

theorem logb_ten_epsilon : Real.logb 10 ((kEpsilon : ℚ) : ℝ) = -9 := by
  rw [epsilon_eq_rpow, Real.logb_rpow (by norm_num : (0 : ℝ) < 10) (by norm_num : (10 : ℝ) ≠ 1)]
  norm_num

theorem gainToDecibels_epsilon : gainToDecibels ((kEpsilon : ℚ) : ℝ) = -100 := by
  rw [gainToDecibels, if_pos epsilon_cast_pos, logb_ten_epsilon]
  norm_num

theorem mkTimelinePoint_silent (f : ProbeFrame)
    (hsum : f.sumSquares = 0) (hpeak : f.peakLinear = 0) :
    (mkTimelinePoint f).rmsDb = gainToDecibels ((kEpsilon : ℚ) : ℝ) ∧
      (mkTimelinePoint f).peakDb = gainToDecibels ((kEpsilon : ℚ) : ℝ) := by
  constructor
  · show gainToDecibels (frameRmsLinear f + (kEpsilon : ℝ)) = _
    rw [frameRmsLinear, hsum]
    norm_num
  · show gainToDecibels ((f.peakLinear : ℝ) + (kEpsilon : ℝ)) = _
    rw [hpeak]
    norm_num

/-- C4 (amended): for a silent frame whose timeline point is recorded, both
decibel values equal `juce::Decibels::gainToDecibels(epsilon)`, which is the
clamp floor `-100` (since `20*log10(1e-9) = -180 < -100`), a finite real
number (never `-infinity`, never `NaN`); they do NOT equal the unclamped
`20*log10(epsilon) = -180`. -/
theorem ma_C4 (a : Aggregator) (f : ProbeFrame)
    (hsum : f.sumSquares = 0) (hpeak : f.peakLinear = 0)
    (hrec : a.lastTimelineWrite < 0 ∨
      kTimelineSpacingSec ≤ f.timestampSec - a.lastTimelineWrite) :
    (a.ingest f).timeline = a.timeline ++ [mkTimelinePoint f] ∧
      (mkTimelinePoint f).rmsDb = gainToDecibels ((kEpsilon : ℚ) : ℝ) ∧
      (mkTimelinePoint f).peakDb = gainToDecibels ((kEpsilon : ℚ) : ℝ) ∧
      (mkTimelinePoint f).rmsDb = -100 ∧
      (mkTimelinePoint f).peakDb = -100 := by
  obtain ⟨h1, h2⟩ := mkTimelinePoint_silent f hsum hpeak
  refine ⟨?_, h1, h2, ?_, ?_⟩
  · rw [ingest_timeline, if_pos hrec]
  · rw [h1, gainToDecibels_epsilon]
  · rw [h2, gainToDecibels_epsilon]

theorem ma_C4_witness :
    (⟨0, 0, 480, 0⟩ : ProbeFrame).sumSquares = 0 ∧
      (⟨0, 0, 480, 0⟩ : ProbeFrame).peakLinear = 0 ∧
      (mkTimelinePoint ⟨0, 0, 480, 0⟩).rmsDb = -100 :=
  ⟨rfl, rfl,
    (ma_C4 (initialAggregator 48000) ⟨0, 0, 480, 0⟩ rfl rfl
      (Or.inl (by norm_num [initialAggregator, Aggregator.reset]))).2.2.2.1⟩

/-- C4 counterexample: for a recorded silent frame the code's `rms_db` is the
clamped `-100`, not `20*log10(epsilon) = -180` as the claim states. -/
theorem ma_C4_cex :
    ((initialAggregator 48000).ingest ⟨0, 0, 480, 0⟩).timeline.map TimelinePoint.rmsDb ≠
      [20 * Real.logb 10 ((kEpsilon : ℚ) : ℝ)] := by
  rw [ingest_timeline, if_pos (Or.inl (by norm_num [initialAggregator, Aggregator.reset]))]
  have h1 := (mkTimelinePoint_silent ⟨0, 0, 480, 0⟩ rfl rfl).1
  simp only [initialAggregator, Aggregator.reset, List.nil_append, List.map_cons, List.map_nil]
  rw [h1, gainToDecibels_epsilon, logb_ten_epsilon]
  intro h
  have := List.head_eq_of_cons_eq h
  norm_num at this

theorem timeline_inv_step (a : Aggregator) (f : ProbeFrame)
    (hub : ∀ p ∈ a.timeline, p.timeSec ≤ a.lastTimelineWrite)
    (hpw : (a.timeline.map TimelinePoint.timeSec).Pairwise (· ≤ ·))
    (hts : a.lastTimelineWrite ≤ f.timestampSec) :
    (∀ p ∈ (a.ingest f).timeline, p.timeSec ≤ (a.ingest f).lastTimelineWrite) ∧
      ((a.ingest f).timeline.map TimelinePoint.timeSec).Pairwise (· ≤ ·) ∧
      (a.ingest f).lastTimelineWrite ≤ f.timestampSec := by
  rw [ingest_timeline, ingest_lastTimelineWrite]
  by_cases hc : a.lastTimelineWrite < 0 ∨
      kTimelineSpacingSec ≤ f.timestampSec - a.lastTimelineWrite
  · rw [if_pos hc, if_pos hc]
    refine ⟨?_, ?_, le_refl _⟩
    · intro p hp
      rcases List.mem_append.mp hp with hold | hnew
      · exact le_trans (hub p hold) hts
      · rcases List.mem_singleton.mp hnew with rfl
        exact le_refl _
    · rw [List.map_append]
      rw [List.pairwise_append]
      refine ⟨hpw, List.pairwise_singleton _ _, ?_⟩
      intro x hx y hy
      rcases List.mem_map.mp hx with ⟨p, hp, rfl⟩
      rcases List.mem_singleton.mp hy with rfl
      exact le_trans (hub p hp) hts
  · rw [if_neg hc, if_neg hc]
    exact ⟨hub, hpw, hts⟩

theorem timeline_inv_fold (frames : List ProbeFrame) :
    ∀ a : Aggregator,
      (∀ p ∈ a.timeline, p.timeSec ≤ a.lastTimelineWrite) →
      (a.timeline.map TimelinePoint.timeSec).Pairwise (· ≤ ·) →
      (∀ f ∈ frames, a.lastTimelineWrite ≤ f.timestampSec) →
      frames.Pairwise (fun g h => g.timestampSec ≤ h.timestampSec) →
      ((ingestList a frames).timeline.map TimelinePoint.timeSec).Pairwise (· ≤ ·) := by
  induction frames with
  | nil => intro a _ hpw _ _; exact hpw
  | cons f fs ih =>
    intro a hub hpw hlaw hchain
    obtain ⟨hub2, hpw2, hts2⟩ :=
      timeline_inv_step a f hub hpw (hlaw f (List.mem_cons_self f fs))
    rcases List.pairwise_cons.mp hchain with ⟨hhead, htail⟩
    refine ih (a.ingest f) hub2 hpw2 ?_ htail
    intro g hg
    exact le_trans hts2 (hhead g hg)

/-- C2 (amended): `ingest` appends exactly one timeline point iff this is the
first frame since reset (`lastTimelineWrite = -1`) or the frame is at least
0.25 s past the last recorded time; the appended point carries the frame's
timestamp and converts rms and peak to decibels through
`juce::Decibels::gainToDecibels(value + 1e-9)` (which clamps below at
`-100 dB`, so it is not always the bare `20*log10(value + 1e-9)`); otherwise
the timeline is unchanged; and for in-order non-negative timestamps the
timeline's time values are in non-decreasing order. -/
theorem ma_C2 :
    (∀ (a : Aggregator) (f : ProbeFrame),
        a.lastTimelineWrite = -1 ∨ 0 ≤ a.lastTimelineWrite →
        (a.ingest f).timeline =
          if a.lastTimelineWrite = -1 ∨
              kTimelineSpacingSec ≤ f.timestampSec - a.lastTimelineWrite
          then a.timeline ++ [mkTimelinePoint f]
          else a.timeline) ∧
      (∀ f : ProbeFrame,
        (mkTimelinePoint f).timeSec = f.timestampSec ∧
          (mkTimelinePoint f).rmsDb =
            gainToDecibels
              (Real.sqrt ((f.sumSquares : ℝ) / ((max 1 f.sampleCount : ℤ) : ℝ)) +
                (kEpsilon : ℝ)) ∧
          (mkTimelinePoint f).peakDb =
            gainToDecibels ((f.peakLinear : ℝ) + (kEpsilon : ℝ))) ∧
      (∀ (sr : ℚ) (fs : List ProbeFrame),
        fs.Chain' (fun g h => g.timestampSec ≤ h.timestampSec) →
        (∀ f ∈ fs, 0 ≤ f.timestampSec) →
        ((ingestList (initialAggregator sr) fs).timeline.map
            TimelinePoint.timeSec).Chain' (· ≤ ·)) := by
  refine ⟨?_, fun f => ⟨rfl, rfl, rfl⟩, ?_⟩
  · intro a f h
    rw [ingest_timeline]
    rcases h with h | h
    · rw [if_pos (Or.inl (by rw [h]; norm_num)), if_pos (Or.inl h)]
    · have h1 : ¬ a.lastTimelineWrite < 0 := not_lt.mpr h
      have h2 : a.lastTimelineWrite ≠ -1 := by
        intro e
        rw [e] at h
        norm_num at h
      by_cases hs : kTimelineSpacingSec ≤ f.timestampSec - a.lastTimelineWrite
      · rw [if_pos (Or.inr hs), if_pos (Or.inr hs)]
      · rw [if_neg ?_, if_neg ?_]
        · rintro (e | e)
          · exact h2 e
          · exact hs e
        · rintro (e | e)
          · exact h1 e
          · exact hs e
  · intro sr fs hchain hnn
    haveI : IsTrans ProbeFrame (fun g h => g.timestampSec ≤ h.timestampSec) :=
      ⟨fun _ _ _ hab hbc => le_trans hab hbc⟩
    refine List.Pairwise.chain' ?_
    refine timeline_inv_fold fs (initialAggregator sr) ?_ ?_ ?_
      (List.chain'_iff_pairwise.mp hchain)
    · intro p hp
      simp [initialAggregator, Aggregator.reset] at hp
    · simp [initialAggregator, Aggregator.reset]
    · intro f hf
      have := hnn f hf
      show (initialAggregator sr).lastTimelineWrite ≤ f.timestampSec
      simp only [initialAggregator, Aggregator.reset]
      linarith

theorem ma_C2_witness :
    (((initialAggregator 48000).ingest ⟨0, 1, 480, 1⟩).timeline =
        if (initialAggregator 48000).lastTimelineWrite = -1 ∨
            kTimelineSpacingSec ≤
              (⟨0, 1, 480, 1⟩ : ProbeFrame).timestampSec -
                (initialAggregator 48000).lastTimelineWrite
        then (initialAggregator 48000).timeline ++ [mkTimelinePoint ⟨0, 1, 480, 1⟩]
        else (initialAggregator 48000).timeline) ∧
      ((ingestList (initialAggregator 48000) [⟨0, 1, 480, 1⟩]).timeline.map
          TimelinePoint.timeSec).Chain' (· ≤ ·) :=
  ⟨ma_C2.1 (initialAggregator 48000) ⟨0, 1, 480, 1⟩ (Or.inl rfl),
    ma_C2.2.2 48000 [⟨0, 1, 480, 1⟩] (by simp)
      (by
        intro f hf
        rcases List.mem_singleton.mp hf with rfl
        norm_num)⟩

/-- C2 counterexample: the first recorded point of a silent frame has
`peak_db = -100` (juce clamp), not `20*log10(0 + 1e-9) = -180` as the
claim's formula states. -/
theorem ma_C2_cex :
    ((initialAggregator 48000).ingest ⟨0, 0, 1, 0⟩).timeline.map TimelinePoint.peakDb ≠
      [20 * Real.logb 10 ((0 : ℝ) + ((kEpsilon : ℚ) : ℝ))] := by
  rw [ingest_timeline, if_pos (Or.inl (by norm_num [initialAggregator, Aggregator.reset]))]
  have h2 := (mkTimelinePoint_silent ⟨0, 0, 1, 0⟩ rfl rfl).2
  simp only [initialAggregator, Aggregator.reset, List.nil_append, List.map_cons, List.map_nil]
  rw [h2, gainToDecibels_epsilon, zero_add, logb_ten_epsilon]
  intro h
  have := List.head_eq_of_cons_eq h
  norm_num at this

/-- Integrated rms at snapshot time,
`std::sqrt(aggregator.sumSquares / std::max<int64_t>(1, aggregator.totalSamples))`,
FeatureCollector.cpp line 188. -/
noncomputable def integratedRmsLinear (a : Aggregator) : ℝ :=
  Real.sqrt ((a.sumSquares : ℝ) / ((max 1 a.totalSamples : ℤ) : ℝ))

/-- `integratedRmsDb`, FeatureCollector.cpp line 189. -/
noncomputable def integratedRmsDb (a : Aggregator) : ℝ :=
  gainToDecibels (integratedRmsLinear a + (kEpsilon : ℝ))

/-- One frame of the spec's end-to-end scenario:
`sample_count=1000`, `sum_of_squares=250.0`, `peak_linear=0.8`. -/
def scenarioFrame (t : ℚ) : ProbeFrame :=
  ⟨t, 250, 1000, 4 / 5⟩

/-- The four scenario frames, spaced 0.3 s apart. -/
def scenarioFrames : List ProbeFrame :=
  [scenarioFrame 0, scenarioFrame (3 / 10), scenarioFrame (3 / 5), scenarioFrame (9 / 10)]

/-- Aggregate after ingesting the scenario at `sample_rate=1000`. -/
noncomputable def scenarioAggregate : Aggregator :=
  ingestList (initialAggregator 1000) scenarioFrames

theorem scenarioAggregate_eq :
    scenarioAggregate =
      ⟨1000, 19 / 10, 1000, 4000, 4 / 5, 9 / 10,
        [mkTimelinePoint (scenarioFrame 0), mkTimelinePoint (scenarioFrame (3 / 10)),
          mkTimelinePoint (scenarioFrame (3 / 5)), mkTimelinePoint (scenarioFrame (9 / 10))]⟩ := by
  have s1 : (initialAggregator 1000).ingest (scenarioFrame 0) =
      ⟨1000, 1, 250, 1000, 4 / 5, 0, [mkTimelinePoint (scenarioFrame 0)]⟩ := by
    simp only [Aggregator.ingest, initialAggregator, Aggregator.reset, scenarioFrame]
    norm_num [kTimelineSpacingSec, max_def]
  have s2 : (⟨1000, 1, 250, 1000, 4 / 5, 0,
        [mkTimelinePoint (scenarioFrame 0)]⟩ : Aggregator).ingest (scenarioFrame (3 / 10)) =
      ⟨1000, 13 / 10, 500, 2000, 4 / 5, 3 / 10,
        [mkTimelinePoint (scenarioFrame 0), mkTimelinePoint (scenarioFrame (3 / 10))]⟩ := by
    simp only [Aggregator.ingest, scenarioFrame]
    norm_num [kTimelineSpacingSec, max_def]
  have s3 : (⟨1000, 13 / 10, 500, 2000, 4 / 5, 3 / 10,
        [mkTimelinePoint (scenarioFrame 0),
          mkTimelinePoint (scenarioFrame (3 / 10))]⟩ : Aggregator).ingest
        (scenarioFrame (3 / 5)) =
      ⟨1000, 8 / 5, 750, 3000, 4 / 5, 3 / 5,
        [mkTimelinePoint (scenarioFrame 0), mkTimelinePoint (scenarioFrame (3 / 10)),
          mkTimelinePoint (scenarioFrame (3 / 5))]⟩ := by
    simp only [Aggregator.ingest, scenarioFrame]
    norm_num [kTimelineSpacingSec, max_def]
  have s4 : (⟨1000, 8 / 5, 750, 3000, 4 / 5, 3 / 5,
        [mkTimelinePoint (scenarioFrame 0), mkTimelinePoint (scenarioFrame (3 / 10)),
          mkTimelinePoint (scenarioFrame (3 / 5))]⟩ : Aggregator).ingest
        (scenarioFrame (9 / 10)) =
      ⟨1000, 19 / 10, 1000, 4000, 4 / 5, 9 / 10,
        [mkTimelinePoint (scenarioFrame 0), mkTimelinePoint (scenarioFrame (3 / 10)),
          mkTimelinePoint (scenarioFrame (3 / 5)),
          mkTimelinePoint (scenarioFrame (9 / 10))]⟩ := by
    simp only [Aggregator.ingest, scenarioFrame]
    norm_num [kTimelineSpacingSec, max_def]
  show ingestList (initialAggregator 1000) scenarioFrames = _
  rw [ingestList, scenarioFrames]
  simp only [List.foldl_cons, List.foldl_nil]
  rw [s1, s2, s3, s4]

/-- C6 (amended): the end-to-end scenario yields 4 timeline points and
`cumulative_sample_count = 4000`, but the integrated rms is
`sqrt(1000/4000) = 0.5`, so `integrated_rms_db =
gainToDecibels(0.5 + epsilon)` (about -6.02 dB), not
`20*log10(sqrt(1.0)+epsilon) ≈ 0 dB` as the claim computes. -/
theorem ma_C6 :
    scenarioAggregate.timeline.length = 4 ∧
      scenarioAggregate.totalSamples = 4000 ∧
      integratedRmsDb scenarioAggregate = gainToDecibels ((1 / 2 : ℝ) + (kEpsilon : ℝ)) := by
  rw [scenarioAggregate_eq]
  refine ⟨rfl, rfl, ?_⟩
  rw [integratedRmsDb, integratedRmsLinear]
  congr 1
  have hmax : (max 1 (4000 : ℤ)) = 4000 := by decide
  rw [hmax]
  have harg : ((1000 : ℚ) : ℝ) / ((4000 : ℤ) : ℝ) = (1 / 2 : ℝ) ^ 2 := by
    push_cast
    norm_num
  rw [harg, Real.sqrt_sq (by norm_num : (0 : ℝ) ≤ 1 / 2)]

/-- C6 counterexample: the scenario's `integrated_rms_db` is strictly below
zero (it equals the clamped dB of `0.5 + 1e-9`), while the claim's value
`20*log10(sqrt(1.0)+epsilon)` is strictly positive; the two differ. -/
theorem ma_C6_cex :
    integratedRmsDb scenarioAggregate ≠
      20 * Real.logb 10 (Real.sqrt 1 + ((kEpsilon : ℚ) : ℝ)) := by
  have hlhs : integratedRmsDb scenarioAggregate =
      gainToDecibels ((1 / 2 : ℝ) + (kEpsilon : ℝ)) := ma_C6.2.2
  rw [hlhs, Real.sqrt_one, gainToDecibels]
  have heps : (0 : ℝ) < ((kEpsilon : ℚ) : ℝ) := epsilon_cast_pos
  rw [if_pos (by linarith : (0 : ℝ) < 1 / 2 + ((kEpsilon : ℚ) : ℝ))]
  have hlt1 : (1 / 2 : ℝ) + ((kEpsilon : ℚ) : ℝ) < 1 := by
    have : ((kEpsilon : ℚ) : ℝ) < 1 / 2 := by
      norm_num [kEpsilon]
    linarith
  have hneg : Real.logb 10 ((1 / 2 : ℝ) + ((kEpsilon : ℚ) : ℝ)) < 0 :=
    Real.logb_neg (by norm_num : (1 : ℝ) < 10) (by linarith) hlt1
  have hpos : 0 < Real.logb 10 ((1 : ℝ) + ((kEpsilon : ℚ) : ℝ)) :=
    Real.logb_pos (by norm_num : (1 : ℝ) < 10) (by linarith)
  apply ne_of_lt
  have h1 : max (-100 : ℝ) (20 * Real.logb 10 ((1 / 2 : ℝ) + ((kEpsilon : ℚ) : ℝ))) ≤
      max (-100 : ℝ) 0 := by
    apply max_le_max (le_refl _)
    linarith
  calc max (-100 : ℝ) (20 * Real.logb 10 ((1 / 2 : ℝ) + ((kEpsilon : ℚ) : ℝ)))
      ≤ max (-100 : ℝ) 0 := h1
    _ = 0 := by norm_num
    _ < 20 * Real.logb 10 (1 + ((kEpsilon : ℚ) : ℝ)) := by linarith

/-- `SnapshotRequest` from FeatureCollector.h lines 22-30. -/
structure SnapshotRequest where
  trackId : String := "untitled"
  sessionId : String := "session"
  hostName : String := "UnknownHost"
  dataRootOverride : String := ""
  buildId : String := "dev"
  sampleRate : ℚ := 0
  deriving Repr, DecidableEq

/-- `juce::CharacterFunctions::isWhitespace` (external JUCE library):
a space or a control character in 9..13. -/
def juceIsWhitespace (c : Char) : Bool :=
  c == ' ' || (9 ≤ c.toNat && c.toNat ≤ 13)

/-- `juce::String::trim` (external JUCE library): drop whitespace from both
ends. -/
def trimChars (cs : List Char) : List Char :=
  ((cs.dropWhile juceIsWhitespace).reverse.dropWhile juceIsWhitespace).reverse

/-- The characters `juce::File::createLegalFileName` removes (external JUCE
library: `removeCharacters ("\"#@,;:<>*^|?\\/")`). -/
def illegalFileNameChars : List Char :=
  ['\"', '#', '@', ',', ';', ':', '<', '>', '*', '^', '|', '?', '\\', '/']

/-- Index of the last occurrence of `c`, or `-1` when absent
(`juce::String::lastIndexOfChar`). -/
def lastIndexOfChar (cs : List Char) (c : Char) : Int :=
  match (cs.reverse.findIdx? (· == c)) with
  | some i => (cs.length : Int) - 1 - (i : Int)
  | none => -1

/-- `juce::File::createLegalFileName` (external JUCE library): strip the
illegal characters, then truncate to 128 characters, preserving a short
trailing extension when one is present. -/
def createLegalFileName (original : List Char) : List Char :=
  let s := original.filter (fun c => !(illegalFileNameChars.contains c))
  let len := s.length
  if 128 < len then
    let lastDot := lastIndexOfChar s '.'
    if max 0 ((len : Int) - 12) < lastDot then
      s.take (128 - (len - lastDot.toNat)) ++ s.drop lastDot.toNat
    else s.take 128
  else s

/-- `sanitiseId`, FeatureCollector.cpp lines 11-17: trim, substitute
"untitled" for an empty result, then make the name legal. -/
def sanitiseId (raw : String) : String :=
  let cleaned := trimChars raw.data
  let cleaned := if cleaned = [] then "untitled".data else cleaned
  ⟨createLegalFileName cleaned⟩

/- Filesystem paths are modelled as the list of segments handed to
`juce::File::getChildFile` along the way; an already-absolute path string
(an override or the environment root, which the source passes through
`juce::File(...).getAbsoluteFile()`) is kept as a single opaque segment. -/

/-- `defaultDataRoot`, FeatureCollector.cpp lines 19-27; the result of
`std::getenv("MA_DATA_ROOT")` is the `env` parameter (`none` for unset) and
the user home directory is the `home` parameter. -/
def defaultDataRoot (env : Option String) (home : List String) : List String :=
  match env with
  | some e => if e = "" then home ++ ["music-advisor", "data"] else [e]
  | none => home ++ ["music-advisor", "data"]

/-- `resolveDataRoot`, FeatureCollector.cpp lines 29-34. -/
def resolveDataRoot (request : SnapshotRequest) (env : Option String)
    (home : List String) : List String :=
  if request.dataRootOverride ≠ "" then [request.dataRootOverride]
  else defaultDataRoot env home

/-- Outcome of the two fallible filesystem steps inside `writeSnapshot`:
`snapshotFolder.createDirectory()` and `FileOutputStream::openedOk()`. -/
structure FsOutcome where
  createDirOk : Bool
  openOk : Bool
  deriving Repr, DecidableEq

/-- Result of one `writeSnapshot` call: the returned bool, the report file
created (if any), and the `lastWritePath` member afterwards. -/
structure SnapshotResult where
  ok : Bool
  fileWritten : Option (List String)
  lastWritePath : Option (List String)
  deriving Repr, DecidableEq

/-- The destination report file,
`root / "features_output" / "juce_probe" / sanitiseId(trackId) / timestamp /
"juce_probe_features.json"`, FeatureCollector.cpp lines 176-186. -/
def snapshotOutputFile (request : SnapshotRequest) (env : Option String)
    (home : List String) (timestamp : String) : List String :=
  resolveDataRoot request env home ++
    ["features_output", "juce_probe", sanitiseId request.trackId, timestamp,
      "juce_probe_features.json"]

/-- `FeatureCollector::writeSnapshot`, FeatureCollector.cpp lines 171-237.
The guards appear in source order: empty aggregate, directory creation,
file open; only a fully successful write records the new `lastWritePath`.
The JSON body (lines 193-224) has no failure path and is not modelled. -/
def writeSnapshot (a : Aggregator) (request : SnapshotRequest) (env : Option String)
    (home : List String) (timestamp : String) (fs : FsOutcome)
    (lastPath : Option (List String)) : SnapshotResult :=
  if a.totalSamples ≤ 0 then ⟨false, none, lastPath⟩
  else
    let outputFile := snapshotOutputFile request env home timestamp
    if !fs.createDirOk then ⟨false, none, lastPath⟩
    else if !fs.openOk then ⟨false, none, lastPath⟩
    else ⟨true, some outputFile, some outputFile⟩

/-- The snapshot-request slot of the collector: the `snapshotRequested`
atomic, the mutex-guarded `pendingSnapshot`, the `writingSnapshot` atomic
and the `lastWritePath` member (FeatureCollector.h lines 74-78). -/
structure SnapState where
  snapshotRequested : Bool
  pendingSnapshot : SnapshotRequest
  writingSnapshot : Bool
  lastWritePath : Option (List String)
  deriving Repr, DecidableEq

/-- `FeatureCollector::requestSnapshot`, FeatureCollector.cpp lines 77-85:
overwrite the pending request, raise the flag. -/
def requestSnapshot (s : SnapState) (request : SnapshotRequest) : SnapState :=
  { s with pendingSnapshot := request, snapshotRequested := true }

/-- Result of one background-thread service pass
(`writeSnapshotIfRequested`): the state afterwards, the request handed to
`writeSnapshot` (if any), and the report file written (if any). -/
structure ServiceResult where
  state : SnapState
  attempted : Option SnapshotRequest
  written : Option (List String)

/-- `FeatureCollector::writeSnapshotIfRequested`, FeatureCollector.cpp
lines 154-169: if the flag is up, take the pending request, drop the flag,
and write, leaving the transient `writingSnapshot` flag false again. -/
def writeSnapshotIfRequested (s : SnapState) (a : Aggregator) (env : Option String)
    (home : List String) (timestamp : String) (fs : FsOutcome) : ServiceResult :=
  if !s.snapshotRequested then ⟨s, none, none⟩
  else
    let requestCopy := s.pendingSnapshot
    let res := writeSnapshot a requestCopy env home timestamp fs s.lastWritePath
    let s2 : SnapState :=
      { s with
        snapshotRequested := false
        writingSnapshot := false
        lastWritePath := res.lastWritePath }
    ⟨s2, some requestCopy, res.fileWritten⟩

/-- C3: `writeSnapshot` fails with no report file and an unchanged
`lastWritePath` exactly when the aggregate is empty, directory creation
fails, or the file cannot be opened; on full success it returns true and
records the output file as the new `lastWritePath`.  The service pass always
lowers the request flag before writing, so a failed write is never
retried. -/
theorem ma_C3 :
    (∀ (a : Aggregator) (req : SnapshotRequest) (env : Option String)
        (home : List String) (ts : String) (fs : FsOutcome)
        (lp : Option (List String)),
      writeSnapshot a req env home ts fs lp =
        if a.totalSamples ≤ 0 ∨ fs.createDirOk = false ∨ fs.openOk = false
        then ⟨false, none, lp⟩
        else ⟨true, some (snapshotOutputFile req env home ts),
          some (snapshotOutputFile req env home ts)⟩) ∧
      (∀ (s : SnapState) (a : Aggregator) (env : Option String)
          (home : List String) (ts : String) (fs : FsOutcome),
        (writeSnapshotIfRequested s a env home ts fs).state.snapshotRequested = false) := by
  constructor
  · intro a req env home ts fs lp
    unfold writeSnapshot
    by_cases h1 : a.totalSamples ≤ 0
    · simp [h1]
    · by_cases h2 : fs.createDirOk = true
      · by_cases h3 : fs.openOk = true
        · simp [h1, h2, h3]
        · simp [h1, h2, h3]
      · simp [h1, h2]
  · intro s a env home ts fs
    unfold writeSnapshotIfRequested
    by_cases hr : s.snapshotRequested = true
    · simp [hr]
    · simp at hr
      simp [hr]

/-- C7: two requests submitted before a service pass coalesce; the next
pass hands exactly the second request to `writeSnapshot`, and a further
pass attempts nothing (the first request is never written). -/
theorem ma_C7 (s : SnapState) (r1 r2 : SnapshotRequest) (a : Aggregator)
    (env : Option String) (home : List String) (ts : String) (fs : FsOutcome) :
    (writeSnapshotIfRequested (requestSnapshot (requestSnapshot s r1) r2)
        a env home ts fs).attempted = some r2 ∧
      (writeSnapshotIfRequested
          (writeSnapshotIfRequested (requestSnapshot (requestSnapshot s r1) r2)
            a env home ts fs).state a env home ts fs).attempted = none ∧
      (writeSnapshotIfRequested
          (writeSnapshotIfRequested (requestSnapshot (requestSnapshot s r1) r2)
            a env home ts fs).state a env home ts fs).written = none := by
  refine ⟨?_, ?_, ?_⟩ <;>
    simp [writeSnapshotIfRequested, requestSnapshot]

theorem createLegalFileName_no_illegal (l : List Char) (c : Char)
    (hc : c ∈ createLegalFileName l) : c ∉ illegalFileNameChars := by
  have hmem : c ∈ l.filter (fun ch => !(illegalFileNameChars.contains ch)) := by
    simp only [createLegalFileName] at hc
    split at hc
    · split at hc
      · rcases List.mem_append.mp hc with h | h
        · exact List.take_subset _ _ h
        · exact List.drop_subset _ _ h
      · exact List.take_subset _ _ hc
    · exact hc
  have h2 := (List.mem_filter.mp hmem).2
  intro hbad
  rw [Bool.not_eq_true'] at h2
  rw [List.contains_eq_any_beq] at h2
  have h3 : illegalFileNameChars.any (c == ·) = true :=
    List.any_eq_true.mpr ⟨c, hbad, by simp⟩
  rw [h3] at h2
  cases h2

/-- C8: the output root is the non-empty request override, else the
non-empty environment root (`MA_DATA_ROOT`), else the fixed default under
the home directory; a successful write lands in
`root/features_output/juce_probe/<sanitised track id>/<timestamp>/`, with
empty or blank track ids replaced by "untitled" and illegal filename
characters stripped. -/
theorem ma_C8 :
    (∀ (req : SnapshotRequest) (env : Option String) (home : List String),
        req.dataRootOverride ≠ "" →
        resolveDataRoot req env home = [req.dataRootOverride]) ∧
      (∀ (req : SnapshotRequest) (e : String) (home : List String),
        req.dataRootOverride = "" → e ≠ "" →
        resolveDataRoot req (some e) home = [e]) ∧
      (∀ (req : SnapshotRequest) (env : Option String) (home : List String),
        req.dataRootOverride = "" → env = none ∨ env = some "" →
        resolveDataRoot req env home = home ++ ["music-advisor", "data"]) ∧
      (∀ (a : Aggregator) (req : SnapshotRequest) (env : Option String)
          (home : List String) (ts : String) (fs : FsOutcome)
          (lp : Option (List String)),
        0 < a.totalSamples → fs.createDirOk = true → fs.openOk = true →
        (writeSnapshot a req env home ts fs lp).fileWritten =
          some (resolveDataRoot req env home ++
            ["features_output", "juce_probe", sanitiseId req.trackId, ts,
              "juce_probe_features.json"])) ∧
      sanitiseId "" = "untitled" ∧
      sanitiseId "   " = "untitled" ∧
      (∀ raw : String, ∀ c ∈ (sanitiseId raw).data, c ∉ illegalFileNameChars) := by
  refine ⟨?_, ?_, ?_, ?_, by decide, by decide, ?_⟩
  · intro req env home h
    rw [resolveDataRoot, if_pos h]
  · intro req e home h he
    rw [resolveDataRoot, if_neg (by simp [h]), defaultDataRoot]
    rw [if_neg he]
  · intro req env home h henv
    rcases henv with rfl | rfl
    · rw [resolveDataRoot, if_neg (by simp [h]), defaultDataRoot]
    · rw [resolveDataRoot, if_neg (by simp [h]), defaultDataRoot]
      rw [if_pos rfl]
  · intro a req env home ts fs lp hpos hdir hopen
    rw [writeSnapshot]
    rw [if_neg (by omega)]
    simp only [hdir, hopen]
    rfl
  · intro raw c hc
    exact createLegalFileName_no_illegal _ c hc

theorem ma_C8_witness :
    resolveDataRoot ⟨"t", "s", "h", "/tmp/root", "b", 0⟩ none ["home"] = ["/tmp/root"] ∧
      resolveDataRoot ⟨"t", "s", "h", "", "b", 0⟩ (some "/envroot") ["home"] = ["/envroot"] ∧
      resolveDataRoot ⟨"t", "s", "h", "", "b", 0⟩ none ["home"] =
        ["home"] ++ ["music-advisor", "data"] ∧
      (writeSnapshot ⟨48000, 0, 0, 1, 0, -1, []⟩ ⟨"t", "s", "h", "", "b", 0⟩ none
          ["home"] "20260101" ⟨true, true⟩ none).fileWritten =
        some (resolveDataRoot ⟨"t", "s", "h", "", "b", 0⟩ none ["home"] ++
          ["features_output", "juce_probe", sanitiseId "t", "20260101",
            "juce_probe_features.json"]) ∧
      'a' ∉ illegalFileNameChars :=
  ⟨ma_C8.1 ⟨"t", "s", "h", "/tmp/root", "b", 0⟩ none ["home"] (by decide),
    ma_C8.2.1 ⟨"t", "s", "h", "", "b", 0⟩ "/envroot" ["home"] rfl (by decide),
    ma_C8.2.2.1 ⟨"t", "s", "h", "", "b", 0⟩ none ["home"] rfl (Or.inl rfl),
    ma_C8.2.2.2.1 ⟨48000, 0, 0, 1, 0, -1, []⟩ ⟨"t", "s", "h", "", "b", 0⟩ none
      ["home"] "20260101" ⟨true, true⟩ none (by decide) rfl rfl,
    ma_C8.2.2.2.2.2.2 "a" 'a' (by decide)⟩

/-- `juce::AbstractFifo` cursor state (external JUCE library): a buffer
size and the two cursors `validStart` / `validEnd`, always in
`[0, bufferSize)`. -/
structure AbstractFifo where
  bufferSize : ℕ
  validStart : ℕ
  validEnd : ℕ
  deriving Repr, DecidableEq

/-- `AbstractFifo::getNumReady`:
`ve >= vs ? ve - vs : bufferSize - (vs - ve)`. -/
def AbstractFifo.numReady (f : AbstractFifo) : ℕ :=
  if f.validStart ≤ f.validEnd then f.validEnd - f.validStart
  else f.bufferSize - (f.validStart - f.validEnd)

/-- The free-space expression inside `AbstractFifo::prepareToWrite`:
`ve >= vs ? bufferSize - (ve - vs) : vs - ve`. -/
def AbstractFifo.freeSpaceForWrite (f : AbstractFifo) : ℕ :=
  if f.validStart ≤ f.validEnd then f.bufferSize - (f.validEnd - f.validStart)
  else f.validStart - f.validEnd

/-- `AbstractFifo::prepareToWrite(1, ...)` restricted to the single-region
result `(startIndex1, blockSize1)` that `pushFrame` uses:
`numToWrite = min(1, freeSpace - 1)`; when it is 0 all outputs are 0, else
`startIndex1 = ve` and `blockSize1 = min(bufferSize - ve, numToWrite)`. -/
def AbstractFifo.prepareToWrite1 (f : AbstractFifo) : ℕ × ℕ :=
  let numToWrite := min 1 (f.freeSpaceForWrite - 1)
  if numToWrite = 0 then (0, 0)
  else (f.validEnd, min (f.bufferSize - f.validEnd) numToWrite)

/-- Cursor advance with the wrap-around used by `finishedWrite` /
`finishedRead`: `newPos = pos + n; if (newPos >= bufferSize) newPos -= bufferSize`. -/
def AbstractFifo.wrap (f : AbstractFifo) (n : ℕ) : ℕ :=
  if f.bufferSize ≤ n then n - f.bufferSize else n

/-- `AbstractFifo::finishedWrite`. -/
def AbstractFifo.finishedWrite (f : AbstractFifo) (numWritten : ℕ) : AbstractFifo :=
  { f with validEnd := f.wrap (f.validEnd + numWritten) }

/-- `AbstractFifo::prepareToRead(1, ...)` restricted to the single-region
result `(startIndex1, blockSize1)` that `drainFrames` uses. -/
def AbstractFifo.prepareToRead1 (f : AbstractFifo) : ℕ × ℕ :=
  let numWanted := min 1 f.numReady
  if numWanted = 0 then (0, 0)
  else (f.validStart, min (f.bufferSize - f.validStart) numWanted)

/-- `AbstractFifo::finishedRead`. -/
def AbstractFifo.finishedRead (f : AbstractFifo) (numRead : ℕ) : AbstractFifo :=
  { f with validStart := f.wrap (f.validStart + numRead) }

/-- `fifoCapacity` member initialiser, FeatureCollector.h line 79. -/
def fifoCapacity : ℕ := 8192

def probeFrameZero : ProbeFrame := ⟨0, 0, 0, 0⟩

/-- The FIFO half of the collector: the `juce::AbstractFifo` and the
backing `fifoBuffer` vector, plus the aggregator the drained frames feed. -/
structure CollectorState where
  aggregator : Aggregator
  fifo : AbstractFifo
  fifoBuffer : List ProbeFrame

/-- Collector state after the constructor and `prepare` (FeatureCollector.cpp
lines 37-56).  The constructor's initialiser list passes `fifoCapacity` to
`fifo` (FeatureCollector.cpp line 38), but `fifoCapacity` is declared after
`fifo` (FeatureCollector.h line 79 vs line 72) and C++ initialises members
in declaration order, so the `AbstractFifo` is constructed from the
not-yet-initialised `fifoCapacity`: an indeterminate value, modelled here by
the parameter `cap`.  The `fifoBuffer.resize((size_t) fifoCapacity)` call in
the constructor body (line 40) runs after every member initialiser, so the
backing buffer's length is the initialised value 8192 regardless. -/
def initialCollector (sampleRate : ℚ) (cap : ℕ) : CollectorState :=
  { aggregator := initialAggregator sampleRate
    fifo := ⟨cap, 0, 0⟩
    fifoBuffer := List.replicate fifoCapacity probeFrameZero }

/-- `FeatureCollector::pushFrame`, FeatureCollector.cpp lines 65-75:
`prepareToWrite(1)`, store the frame at `start1` when `size1 > 0`, then
`finishedWrite(size1)`; otherwise the frame is dropped. -/
def pushFrame (s : CollectorState) (frame : ProbeFrame) : CollectorState :=
  let p := s.fifo.prepareToWrite1
  if 0 < p.2 then
    { s with
      fifoBuffer := s.fifoBuffer.set p.1 frame
      fifo := s.fifo.finishedWrite p.2 }
  else s

/-- A sequence of producer pushes with no intervening drain. -/
def pushFrames (s : CollectorState) (frames : List ProbeFrame) : CollectorState :=
  frames.foldl pushFrame s

/-- The body of the `while (fifo.getNumReady() > 0)` loop of
`FeatureCollector::drainFrames` (FeatureCollector.cpp lines 141-152),
with explicit fuel; the loop terminates because every iteration
`finishedRead` removes one ready frame, so `numReady` is a valid fuel.
Returns the finished state together with the frames read, in read order. -/
noncomputable def drainLoop : ℕ → CollectorState → CollectorState × List ProbeFrame
  | 0, s => (s, [])
  | fuel + 1, s =>
    if s.fifo.numReady = 0 then (s, [])
    else
      let p := s.fifo.prepareToRead1
      let frame := s.fifoBuffer.getD p.1 probeFrameZero
      let s2 : CollectorState :=
        { s with
          aggregator := if 0 < p.2 then s.aggregator.ingest frame else s.aggregator
          fifo := s.fifo.finishedRead p.2 }
      let rest := drainLoop fuel s2
      (rest.1, (if 0 < p.2 then [frame] else []) ++ rest.2)

/-- `FeatureCollector::drainFrames`. -/
noncomputable def drainFrames (s : CollectorState) : CollectorState × List ProbeFrame :=
  drainLoop s.fifo.numReady s

/-- The abstract queue contents: the `numReady` frames starting at
`validStart`, in FIFO order. -/
def fifoContents (s : CollectorState) : List ProbeFrame :=
  (List.range s.fifo.numReady).map
    (fun i => s.fifoBuffer.getD ((s.fifo.validStart + i) % s.fifo.bufferSize) probeFrameZero)

/-- The cursor/buffer invariant maintained by every FIFO operation: both
cursors lie inside the constructed capacity, and the capacity does not
exceed the backing buffer's length (when the indeterminate constructed
capacity exceeded the buffer, the source's `fifoBuffer[start1]` writes
would themselves be out of bounds). -/
def FifoInv (s : CollectorState) : Prop :=
  s.fifo.validStart < s.fifo.bufferSize ∧
    s.fifo.validEnd < s.fifo.bufferSize ∧
    s.fifo.bufferSize ≤ s.fifoBuffer.length

theorem initialCollector_inv (sr : ℚ) (cap : ℕ) (hpos : 0 < cap)
    (hle : cap ≤ fifoCapacity) : FifoInv (initialCollector sr cap) := by
  refine ⟨hpos, hpos, ?_⟩
  show cap ≤ (List.replicate fifoCapacity probeFrameZero).length
  rw [List.length_replicate]
  exact hle

theorem numReady_lt (s : CollectorState) (h : FifoInv s) :
    s.fifo.numReady < s.fifo.bufferSize := by
  obtain ⟨h1, h2, -⟩ := h
  unfold AbstractFifo.numReady
  split <;> omega

theorem validEnd_eq (s : CollectorState) (h : FifoInv s) :
    s.fifo.validEnd = (s.fifo.validStart + s.fifo.numReady) % s.fifo.bufferSize := by
  obtain ⟨h1, h2, -⟩ := h
  unfold AbstractFifo.numReady
  split
  · rw [Nat.mod_eq_of_lt]
    · omega
    · omega
  · have : s.fifo.validStart + (s.fifo.bufferSize - (s.fifo.validStart - s.fifo.validEnd)) =
        s.fifo.bufferSize + s.fifo.validEnd := by omega
    rw [this, Nat.add_mod_left, Nat.mod_eq_of_lt h2]

theorem freeSpace_eq (s : CollectorState) (h : FifoInv s) :
    s.fifo.freeSpaceForWrite = s.fifo.bufferSize - s.fifo.numReady := by
  obtain ⟨h1, h2, -⟩ := h
  unfold AbstractFifo.freeSpaceForWrite AbstractFifo.numReady
  split <;> omega

theorem add_mod_inj {cap vs i j : ℕ} (hi : i < cap) (hj : j < cap)
    (h : (vs + i) % cap = (vs + j) % cap) : i = j := by
  have h2 : i % cap = j % cap := Nat.ModEq.add_left_cancel' vs h
  rwa [Nat.mod_eq_of_lt hi, Nat.mod_eq_of_lt hj] at h2

theorem prepareToWrite1_full (f : AbstractFifo) (h : f.freeSpaceForWrite = 1) :
    f.prepareToWrite1 = (0, 0) := by
  simp only [AbstractFifo.prepareToWrite1, h]
  norm_num

theorem prepareToWrite1_room (f : AbstractFifo) (h : 2 ≤ f.freeSpaceForWrite)
    (hve : f.validEnd < f.bufferSize) :
    f.prepareToWrite1 = (f.validEnd, 1) := by
  simp only [AbstractFifo.prepareToWrite1]
  rw [show min 1 (f.freeSpaceForWrite - 1) = 1 by omega]
  rw [if_neg (by omega)]
  rw [show min (f.bufferSize - f.validEnd) 1 = 1 by omega]

theorem pushFrame_full (s : CollectorState) (g : ProbeFrame) (h : FifoInv s)
    (hfull : s.fifo.numReady = s.fifo.bufferSize - 1) :
    pushFrame s g = s := by
  have hcap : 0 < s.fifo.bufferSize := lt_of_le_of_lt (Nat.zero_le _) h.1
  have hfs : s.fifo.freeSpaceForWrite = 1 := by
    rw [freeSpace_eq s h, hfull]
    omega

  unfold pushFrame
  rw [prepareToWrite1_full s.fifo hfs]
  norm_num

theorem numReady_finishedWrite (f : AbstractFifo)
    (hvs : f.validStart < f.bufferSize) (hve : f.validEnd < f.bufferSize)
    (hroom : f.numReady < f.bufferSize - 1) :
    (f.finishedWrite 1).numReady = f.numReady + 1 := by
  unfold AbstractFifo.numReady AbstractFifo.finishedWrite AbstractFifo.wrap at *
  simp only at *
  split_ifs at * <;> omega

theorem numReady_finishedRead (f : AbstractFifo)
    (hvs : f.validStart < f.bufferSize) (hve : f.validEnd < f.bufferSize)
    (hpos : 0 < f.numReady) :
    (f.finishedRead 1).numReady = f.numReady - 1 := by
  unfold AbstractFifo.numReady AbstractFifo.finishedRead AbstractFifo.wrap at *
  simp only at *
  split_ifs at * <;> omega

theorem pushFrame_room (s : CollectorState) (g : ProbeFrame) (h : FifoInv s)
    (hroom : s.fifo.numReady < s.fifo.bufferSize - 1) :
    FifoInv (pushFrame s g) ∧
      (pushFrame s g).fifo.numReady = s.fifo.numReady + 1 ∧
      fifoContents (pushFrame s g) = fifoContents s ++ [g] ∧
      (pushFrame s g).aggregator = s.aggregator ∧
      (pushFrame s g).fifo.bufferSize = s.fifo.bufferSize ∧
      (pushFrame s g).fifo.validStart = s.fifo.validStart := by
  obtain ⟨hvs, hve, hlen⟩ := h
  have hfs : 2 ≤ s.fifo.freeSpaceForWrite := by
    rw [freeSpace_eq s ⟨hvs, hve, hlen⟩]
    omega
  have hveq := validEnd_eq s ⟨hvs, hve, hlen⟩
  have hnr := numReady_finishedWrite s.fifo hvs hve hroom
  have hp : pushFrame s g =
      { s with
        fifoBuffer := s.fifoBuffer.set s.fifo.validEnd g
        fifo := s.fifo.finishedWrite 1 } := by
    unfold pushFrame
    rw [prepareToWrite1_room s.fifo hfs hve]
    norm_num
  rw [hp]
  refine ⟨⟨hvs, ?_, ?_⟩, hnr, ?_, rfl, rfl, rfl⟩
  · show (s.fifo.finishedWrite 1).validEnd < s.fifo.bufferSize
    unfold AbstractFifo.finishedWrite AbstractFifo.wrap
    simp only
    split_ifs <;> omega
  · show s.fifo.bufferSize ≤ (s.fifoBuffer.set s.fifo.validEnd g).length
    rw [List.length_set]
    exact hlen
  · unfold fifoContents
    simp only
    rw [hnr]
    have hproj1 : (s.fifo.finishedWrite 1).validStart = s.fifo.validStart := rfl
    have hproj2 : (s.fifo.finishedWrite 1).bufferSize = s.fifo.bufferSize := rfl
    simp only [hproj1, hproj2]
    have hbuf : ∀ k : ℕ, k ≠ s.fifo.validEnd →
        (s.fifoBuffer.set s.fifo.validEnd g).getD k probeFrameZero =
          s.fifoBuffer.getD k probeFrameZero := by
      intro k hk
      rw [List.getD_eq_getElem?_getD, List.getD_eq_getElem?_getD,
        List.getElem?_set_ne (fun e => hk e.symm)]
    rw [List.range_succ, List.map_append, List.map_cons, List.map_nil]
    congr 1
    · apply List.map_congr_left
      intro i hi
      rw [List.mem_range] at hi
      apply hbuf
      intro heq
      rw [hveq] at heq
      have := add_mod_inj (lt_trans hi (by omega)) (by omega) heq
      omega
    · rw [← hveq]
      rw [List.getD_eq_getElem?_getD, List.getElem?_set_self (lt_of_lt_of_le hve hlen)]
      rfl

theorem pushFrames_spec (frames : List ProbeFrame) :
    ∀ s : CollectorState, FifoInv s →
      FifoInv (pushFrames s frames) ∧
        (pushFrames s frames).aggregator = s.aggregator ∧
        fifoContents (pushFrames s frames) =
          fifoContents s ++ frames.take (s.fifo.bufferSize - 1 - s.fifo.numReady) := by
  induction frames with
  | nil =>
    intro s h
    refine ⟨h, rfl, ?_⟩
    rw [List.take_nil, List.append_nil]
    rfl
  | cons g gs ih =>
    intro s h
    have hstep : pushFrames s (g :: gs) = pushFrames (pushFrame s g) gs := rfl
    by_cases hroom : s.fifo.numReady < s.fifo.bufferSize - 1
    · obtain ⟨h1, h2, h3, h4, h5, h6⟩ := pushFrame_room s g h hroom
      obtain ⟨ih1, ih2, ih3⟩ := ih (pushFrame s g) h1
      rw [hstep]
      refine ⟨ih1, by rw [ih2, h4], ?_⟩
      rw [ih3, h3, h2, h5]
      rw [show s.fifo.bufferSize - 1 - s.fifo.numReady =
        (s.fifo.bufferSize - 1 - (s.fifo.numReady + 1)) + 1 by omega]
      rw [List.take_succ_cons, List.append_assoc]
      rfl
    · have hfull : s.fifo.numReady = s.fifo.bufferSize - 1 := by
        have := numReady_lt s h
        omega
      rw [hstep, pushFrame_full s g h hfull]
      obtain ⟨ih1, ih2, ih3⟩ := ih s h
      refine ⟨ih1, ih2, ?_⟩
      rw [ih3, hfull]
      rw [show s.fifo.bufferSize - 1 - (s.fifo.bufferSize - 1) = 0 by omega]
      rw [List.take_zero, List.take_zero]

theorem fifoContents_empty (s : CollectorState) (hn : s.fifo.numReady = 0) :
    fifoContents s = [] := by
  unfold fifoContents
  rw [hn]
  rfl

theorem drainLoop_spec :
    ∀ (n : ℕ) (s : CollectorState), FifoInv s → s.fifo.numReady = n →
      (drainLoop n s).2 = fifoContents s ∧
        (drainLoop n s).1.aggregator = ingestList s.aggregator (fifoContents s) := by
  intro n
  induction n with
  | zero =>
    intro s h hn
    rw [fifoContents_empty s hn]
    exact ⟨rfl, rfl⟩
  | succ n ih =>
    intro s h hn
    obtain ⟨hvs, hve, hlen⟩ := h
    have hne : ¬ s.fifo.numReady = 0 := by omega
    have hpr : s.fifo.prepareToRead1 = (s.fifo.validStart, 1) := by
      unfold AbstractFifo.prepareToRead1
      rw [hn]
      simp only
      rw [show min 1 (n + 1) = 1 by omega]
      rw [if_neg one_ne_zero]
      rw [show min (s.fifo.bufferSize - s.fifo.validStart) 1 = 1 by omega]
    have hd : drainLoop (n + 1) s =
        ((drainLoop n
            { s with
              aggregator := s.aggregator.ingest
                (s.fifoBuffer.getD s.fifo.validStart probeFrameZero)
              fifo := s.fifo.finishedRead 1 }).1,
          s.fifoBuffer.getD s.fifo.validStart probeFrameZero ::
            (drainLoop n
              { s with
                aggregator := s.aggregator.ingest
                  (s.fifoBuffer.getD s.fifo.validStart probeFrameZero)
                fifo := s.fifo.finishedRead 1 }).2) := by
      rw [drainLoop]
      rw [if_neg hne, hpr]
      norm_num
    have h2 : FifoInv
        { s with
          aggregator := s.aggregator.ingest (s.fifoBuffer.getD s.fifo.validStart probeFrameZero)
          fifo := s.fifo.finishedRead 1 } := by
      refine ⟨?_, hve, hlen⟩
      show (s.fifo.finishedRead 1).validStart < s.fifo.bufferSize
      unfold AbstractFifo.finishedRead AbstractFifo.wrap
      simp only
      split_ifs <;> omega
    have hn2 :
        ({ s with
          aggregator := s.aggregator.ingest (s.fifoBuffer.getD s.fifo.validStart probeFrameZero)
          fifo := s.fifo.finishedRead 1 } : CollectorState).fifo.numReady = n := by
      show (s.fifo.finishedRead 1).numReady = n
      rw [numReady_finishedRead s.fifo hvs hve (by omega)]
      omega
    have hshift : fifoContents s =
        s.fifoBuffer.getD s.fifo.validStart probeFrameZero ::
          fifoContents
            { s with
              aggregator := s.aggregator.ingest
                (s.fifoBuffer.getD s.fifo.validStart probeFrameZero)
              fifo := s.fifo.finishedRead 1 } := by
      unfold fifoContents
      rw [hn, hn2]
      rw [List.range_succ_eq_map, List.map_cons, List.map_map]
      congr 1
      · rw [Nat.add_zero, Nat.mod_eq_of_lt hvs]
      · apply List.map_congr_left
        intro i hi
        rw [List.mem_range] at hi
        show s.fifoBuffer.getD ((s.fifo.validStart + Nat.succ i) % s.fifo.bufferSize)
            probeFrameZero =
          s.fifoBuffer.getD (((s.fifo.finishedRead 1).validStart + i) %
            s.fifo.bufferSize) probeFrameZero
        congr 1
        unfold AbstractFifo.finishedRead AbstractFifo.wrap
        simp only
        by_cases hc : s.fifo.bufferSize ≤ s.fifo.validStart + 1
        · rw [if_pos hc]
          rw [show s.fifo.validStart + Nat.succ i = s.fifo.bufferSize +
            (s.fifo.validStart + 1 - s.fifo.bufferSize + i) by omega]
          rw [Nat.add_mod_left]
        · rw [if_neg hc]
          rw [show s.fifo.validStart + Nat.succ i = s.fifo.validStart + 1 + i by omega]
    obtain ⟨ihl, ihr⟩ := ih _ h2 hn2
    constructor
    · rw [hd]
      simp only
      rw [ihl, hshift]
    · rw [hd]
      simp only
      rw [ihr, hshift]
      rfl

theorem initial_numReady (sr : ℚ) (cap : ℕ) :
    (initialCollector sr cap).fifo.numReady = 0 := rfl

theorem pushed_contents (sr : ℚ) (cap : ℕ) (frames : List ProbeFrame)
    (hpos : 0 < cap) (hle : cap ≤ fifoCapacity) :
    fifoContents (pushFrames (initialCollector sr cap) frames) =
      frames.take (cap - 1) := by
  obtain ⟨-, -, p3⟩ :=
    pushFrames_spec frames (initialCollector sr cap) (initialCollector_inv sr cap hpos hle)
  rw [p3, fifoContents_empty _ (initial_numReady sr cap), List.nil_append]
  rfl

theorem drained_of_initial (sr : ℚ) (cap : ℕ) (frames : List ProbeFrame)
    (hpos : 0 < cap) (hle : cap ≤ fifoCapacity) :
    (drainFrames (pushFrames (initialCollector sr cap) frames)).2 =
        frames.take (cap - 1) ∧
      (drainFrames (pushFrames (initialCollector sr cap) frames)).1.aggregator =
        ingestList (initialAggregator sr) (frames.take (cap - 1)) := by
  obtain ⟨p1, p2, -⟩ :=
    pushFrames_spec frames (initialCollector sr cap) (initialCollector_inv sr cap hpos hle)
  obtain ⟨d1, d2⟩ :=
    drainLoop_spec (pushFrames (initialCollector sr cap) frames).fifo.numReady
      (pushFrames (initialCollector sr cap) frames) p1 rfl
  constructor
  · show (drainLoop (pushFrames (initialCollector sr cap) frames).fifo.numReady
      (pushFrames (initialCollector sr cap) frames)).2 = _
    rw [d1, pushed_contents sr cap frames hpos hle]
  · show (drainLoop (pushFrames (initialCollector sr cap) frames).fifo.numReady
      (pushFrames (initialCollector sr cap) frames)).1.aggregator = _
    rw [d2, pushed_contents sr cap frames hpos hle, p2]
    rfl

/-- C5 (amended): the source constructor reads `fifoCapacity` before its
`{8192}` initialiser runs (`fifo(fifoCapacity)` with `fifoCapacity`
declared after `fifo`), so the constructed fifo capacity is an
indeterminate value `cap`, not a guaranteed 8192.  For whatever capacity
`0 < cap ≤ 8192` the fifo was actually built with (8192 is the buffer's
real length; `juce::AbstractFifo` also asserts a positive capacity),
pushing `cap + 5` frames with no intervening drain retains and
subsequently ingests exactly `cap - 1` frames — the `AbstractFifo` always
keeps one slot empty — namely the first `cap - 1` pushed, in FIFO order,
and every overflowing `pushFrame` discards the incoming frame and leaves
the collector state (queue contents included) unchanged. -/
theorem ma_C5 (sr : ℚ) (cap : ℕ) (frames : List ProbeFrame)
    (hpos : 0 < cap) (hle : cap ≤ fifoCapacity)
    (hlen : frames.length = cap + 5) :
    (drainFrames (pushFrames (initialCollector sr cap) frames)).2 =
        frames.take (cap - 1) ∧
      (drainFrames (pushFrames (initialCollector sr cap) frames)).1.aggregator =
        ingestList (initialAggregator sr) (frames.take (cap - 1)) ∧
      (frames.take (cap - 1)).length = cap - 1 ∧
      ∀ (s : CollectorState) (g : ProbeFrame), FifoInv s →
        s.fifo.numReady = s.fifo.bufferSize - 1 → pushFrame s g = s := by
  obtain ⟨hd1, hd2⟩ := drained_of_initial sr cap frames hpos hle
  refine ⟨hd1, hd2, ?_, fun s g hI hfull => pushFrame_full s g hI hfull⟩
  rw [List.length_take, hlen]
  omega

theorem ma_C5_witness :
    (0 < fifoCapacity ∧ fifoCapacity ≤ fifoCapacity) ∧
      (List.replicate (fifoCapacity + 5) probeFrameZero).length = fifoCapacity + 5 ∧
      ((List.replicate (fifoCapacity + 5) probeFrameZero).take
          (fifoCapacity - 1)).length = fifoCapacity - 1 :=
  ⟨⟨by norm_num [fifoCapacity], le_refl _⟩, List.length_replicate _ _,
    (ma_C5 48000 fifoCapacity (List.replicate (fifoCapacity + 5) probeFrameZero)
      (by norm_num [fifoCapacity]) (le_refl _) (List.length_replicate _ _)).2.2.1⟩

/-- A concrete overflow scenario: `capacity + 5` distinct frames, the i-th
stamped at i seconds. -/
def overflowFrames : List ProbeFrame :=
  (List.range (fifoCapacity + 5)).map (fun i : ℕ => ⟨(i : ℚ), 0, 1, 0⟩)

theorem overflowFrames_length : overflowFrames.length = fifoCapacity + 5 := by
  unfold overflowFrames
  rw [List.length_map, List.length_range]

/-- C5 counterexample: even at the intended capacity value 8192 (the value
`fifoCapacity` is initialised to, though the constructor reads it too
early), pushing `capacity + 5` frames into a fresh collector and draining
yields `8191 = capacity - 1` frames, not `capacity = 8192` as the claim
states — `juce::AbstractFifo` always keeps one slot empty, and no
constructed capacity retains `capacity` frames. -/
theorem ma_C5_cex :
    (drainFrames (pushFrames (initialCollector 48000 fifoCapacity)
          overflowFrames)).2.length = fifoCapacity - 1 ∧
      fifoCapacity - 1 ≠ fifoCapacity := by
  constructor
  · rw [(drained_of_initial 48000 fifoCapacity overflowFrames
      (by norm_num [fifoCapacity]) (le_refl _)).1]
    rw [List.length_take, overflowFrames_length]
    unfold fifoCapacity
    omega
  · unfold fifoCapacity
    omega

/-- `ProbeStats` from juce_ui_demo FeatureCollector.h lines 5-11. -/
structure ProbeStats where
  rms : ℝ
  peak : ℝ
  crest : ℝ
  samples : ℤ
  sampleRate : ℚ

/-- The atomics of the juce_ui_demo `FeatureCollector` (lines 66-69),
as one sequentially-read state. -/
structure UiFeatureCollector where
  sumSquares : ℚ
  peak : ℚ
  totalSamples : ℤ
  sampleRate : ℚ

/-- `FeatureCollector::snapshotAndReset`, juce_ui_demo FeatureCollector.h
lines 49-63: exchange the accumulators for zero and derive rms/peak/crest,
which stay 0 when no samples were captured. -/
noncomputable def UiFeatureCollector.snapshotAndReset (c : UiFeatureCollector) :
    ProbeStats × UiFeatureCollector :=
  let n := c.totalSamples
  let stats : ProbeStats :=
    if 0 < n then
      let rmsLin : ℝ := Real.sqrt ((c.sumSquares : ℝ) / (n : ℝ))
      { rms := rmsLin
        peak := (c.peak : ℝ)
        crest := if 0 < rmsLin then (c.peak : ℝ) / rmsLin else 0
        samples := n
        sampleRate := c.sampleRate }
    else
      { rms := 0, peak := 0, crest := 0, samples := n, sampleRate := c.sampleRate }
  (stats, { c with sumSquares := 0, peak := 0, totalSamples := 0 })

/-- `SidecarMeta` from SidecarWriter.h lines 7-12. -/
structure SidecarMeta where
  trackId : String
  sessionId : String
  host : String := "unknown"
  version : String := "juce_probe_features_v1"

/-- The JSON document `SidecarWriter::writeSidecar` serialises
(SidecarWriter.h lines 46-59). -/
structure SidecarDoc where
  version : String
  trackId : String
  sessionId : String
  host : String
  sampleRate : ℚ
  rms : ℝ
  peak : ℝ
  crest : ℝ

/-- `SidecarWriter::writeSidecar`, SidecarWriter.h lines 46-69: build the
document and write it under
`home/music-advisor/data/features_output/juce_probe/<track-or-untitled>/<timestamp>/`;
there is no guard on `stats` and no failure path (the `createDirectory`
result is ignored).  Returns the document and the output file path. -/
noncomputable def writeSidecar (stats : ProbeStats) (meta : SidecarMeta)
    (home : List String) (timestamp : String) : SidecarDoc × List String :=
  (⟨meta.version, meta.trackId, meta.sessionId, meta.host, stats.sampleRate,
      stats.rms, stats.peak, stats.crest⟩,
    home ++ ["music-advisor", "data", "features_output", "juce_probe",
      (if meta.trackId = "" then "untitled" else meta.trackId), timestamp,
      "juce_probe_features.json"])

/-- The `SidecarWriter` job state (SidecarWriter.h lines 71-74). -/
structure SidecarWriterState where
  pendingStats : ProbeStats
  pendingMeta : SidecarMeta
  hasWork : Bool

/-- `SidecarWriter::runJob`, SidecarWriter.h lines 30-43: nothing happens
without pending work; otherwise the pending snapshot is taken, the flag is
dropped and the sidecar is written unconditionally. -/
noncomputable def runJob (w : SidecarWriterState) (home : List String)
    (timestamp : String) : SidecarWriterState × Option (SidecarDoc × List String) :=
  if !w.hasWork then (w, none)
  else ({ w with hasWork := false },
    some (writeSidecar w.pendingStats w.pendingMeta home timestamp))

/-- C10: in the lock-free-atomics variant an enqueued job always writes:
`runJob` has no empty-aggregate guard, so with `hasWork` set it emits a
sidecar document even for `samples = 0` stats, whose rms, peak and crest
are all 0; the FIFO+thread variant instead fails fast with no file when
`totalSamples = 0`. -/
theorem ma_C10 :
    (∀ (w : SidecarWriterState) (home : List String) (ts : String),
        w.hasWork = true →
        (runJob w home ts).2 =
          some (writeSidecar w.pendingStats w.pendingMeta home ts)) ∧
      (∀ c : UiFeatureCollector, c.totalSamples = 0 →
        c.snapshotAndReset.1.rms = 0 ∧ c.snapshotAndReset.1.peak = 0 ∧
          c.snapshotAndReset.1.crest = 0 ∧ c.snapshotAndReset.1.samples = 0 ∧
          ∀ (meta : SidecarMeta) (home : List String) (ts : String),
            (writeSidecar c.snapshotAndReset.1 meta home ts).1.rms = 0 ∧
              (writeSidecar c.snapshotAndReset.1 meta home ts).1.peak = 0 ∧
              (writeSidecar c.snapshotAndReset.1 meta home ts).1.crest = 0) ∧
      (∀ (a : Aggregator) (req : SnapshotRequest) (env : Option String)
          (home : List String) (ts : String) (fs : FsOutcome)
          (lp : Option (List String)),
        a.totalSamples = 0 →
        (writeSnapshot a req env home ts fs lp).ok = false ∧
          (writeSnapshot a req env home ts fs lp).fileWritten = none) := by
  refine ⟨?_, ?_, ?_⟩
  · intro w home ts hw
    unfold runJob
    rw [hw]
    norm_num
  · intro c hn
    have hstats : c.snapshotAndReset.1 =
        { rms := 0, peak := 0, crest := 0, samples := c.totalSamples,
          sampleRate := c.sampleRate } := by
      unfold UiFeatureCollector.snapshotAndReset
      simp only
      rw [if_neg (show ¬ 0 < c.totalSamples by omega)]
    rw [hstats]
    exact ⟨rfl, rfl, rfl, hn, fun meta home ts => ⟨rfl, rfl, rfl⟩⟩
  · intro a req env home ts fs lp hn
    unfold writeSnapshot
    rw [if_pos (by omega)]
    exact ⟨rfl, rfl⟩

theorem ma_C10_witness :
    (runJob ⟨⟨0, 0, 0, 0, 44100⟩, ⟨"t", "s", "unknown", "v1"⟩, true⟩ ["home"] "ts").2 =
        some (writeSidecar ⟨0, 0, 0, 0, 44100⟩ ⟨"t", "s", "unknown", "v1"⟩ ["home"] "ts") ∧
      (⟨0, 0, 0, 44100⟩ : UiFeatureCollector).snapshotAndReset.1.rms = 0 ∧
      (writeSnapshot ⟨48000, 0, 0, 0, 0, -1, []⟩ ⟨"t", "s", "h", "", "b", 0⟩ none
          ["home"] "ts" ⟨true, true⟩ none).ok = false :=
  ⟨ma_C10.1 ⟨⟨0, 0, 0, 0, 44100⟩, ⟨"t", "s", "unknown", "v1"⟩, true⟩ ["home"] "ts" rfl,
    (ma_C10.2.1 ⟨0, 0, 0, 44100⟩ rfl).1,
    (ma_C10.2.2 ⟨48000, 0, 0, 0, 0, -1, []⟩ ⟨"t", "s", "h", "", "b", 0⟩ none
      ["home"] "ts" ⟨true, true⟩ none rfl).1⟩
